import Mathlib

/-!
Verification of the toy TURN server (wtnqk/toy-turn).

This file shallowly embeds the Rust sources:
  src/stun/message.rs, src/stun/attributes.rs, src/stun/auth.rs,
  src/turn/allocation.rs, src/turn/data.rs, src/server/message_handler.rs
as executable Lean definitions (bytes are `Nat` values below 256 in
`List Nat` buffers, machine integer casts are explicit `% 256` / `% 65536`,
`Instant::now()` becomes an explicit `now : Nat` parameter, fallible code
returns `Except`), and proves or refutes the specification claims about it.
-/

namespace ToyTurn

/-- Error type from src/stun/error.rs (`StunError`). -/
inductive StunError where
  | InvalidMagicCookie
  | InvalidMessageLength
  | MessageTooShort
  | InvalidMessageType
  | InvalidAttribute
  | UnknownAttribute (t : Nat)
  | InvalidTransactionId
  | ParseError (s : String)
deriving DecidableEq

/-- Error type from src/turn/error.rs (`TurnError`). -/
inductive TurnError where
  | BadRequest
  | Unauthorized
  | UnknownAttribute
  | StaleNonce
  | AllocationMismatch
  | WrongCredentials
  | UnsupportedTransportProtocol
  | AllocationQuotaReached
  | InsufficientCapacity
  | StunErr (e : StunError)
deriving DecidableEq

/-- `MAGIC_COOKIE` from src/stun/message.rs. -/
def MAGIC_COOKIE : Nat := 0x2112A442

/-- `MessageMethod` from src/stun/message.rs. -/
inductive MessageMethod where
  | Binding
  | Allocate
  | Refresh
  | Send
  | Data
  | CreatePermission
  | ChannelBind
deriving DecidableEq

/-- Discriminant values of `MessageMethod` (the Rust enum reprs). -/
def MessageMethod.toNat : MessageMethod → Nat
  | .Binding => 0x0001
  | .Allocate => 0x0003
  | .Refresh => 0x0004
  | .Send => 0x0006
  | .Data => 0x0007
  | .CreatePermission => 0x0008
  | .ChannelBind => 0x0009

/-- `MessageMethod::from_u16` from src/stun/message.rs. -/
def MessageMethod.from_u16 (value : Nat) : Except StunError MessageMethod :=
  if value = 0x0001 then .ok .Binding
  else if value = 0x0003 then .ok .Allocate
  else if value = 0x0004 then .ok .Refresh
  else if value = 0x0006 then .ok .Send
  else if value = 0x0007 then .ok .Data
  else if value = 0x0008 then .ok .CreatePermission
  else if value = 0x0009 then .ok .ChannelBind
  else .error .InvalidMessageType

/-- `MessageClass` from src/stun/message.rs. -/
inductive MessageClass where
  | Request
  | Indication
  | SuccessResponse
  | ErrorResponse
deriving DecidableEq

/-- `MessageType` from src/stun/message.rs. -/
structure MessageType where
  method : MessageMethod
  class_ : MessageClass
deriving DecidableEq

/-- `MessageType::as_u16` from src/stun/message.rs: interleaves method and
class bits as `M11..M7 C1 M6..M4 C0 M3..M0`. -/
def MessageType.as_u16 (t : MessageType) : Nat :=
  let method := t.method.toNat
  let class_bits : Nat :=
    match t.class_ with
    | .Request => 0b00
    | .Indication => 0b01
    | .SuccessResponse => 0b10
    | .ErrorResponse => 0b11
  let m := Nat.land method 0x0F
  let m1 := Nat.land (method >>> 4) 0x07
  let m2 := Nat.land (method >>> 7) 0x0F
  let c0 := Nat.land class_bits 0x01
  let c1 := Nat.land (class_bits >>> 1) 0x01
  Nat.lor (Nat.lor (Nat.lor (Nat.lor (m2 <<< 9) (c1 <<< 8)) (m1 <<< 5)) (c0 <<< 4)) m

/-- `MessageType::from_u16` from src/stun/message.rs. -/
def MessageType.from_u16 (value : Nat) : Except StunError MessageType := do
  let m := Nat.land value 0x000F
  let m1 := Nat.land (value >>> 5) 0x0007
  let m2 := Nat.land (value >>> 9) 0x000F
  let method_value := Nat.lor (Nat.lor (m2 <<< 7) (m1 <<< 4)) m
  let method ← MessageMethod.from_u16 method_value
  let c0 := Nat.land (value >>> 4) 0x01
  let c1 := Nat.land (value >>> 8) 0x01
  let class_bits := Nat.lor (c1 <<< 1) c0
  let class_ : MessageClass :=
    if class_bits = 0b00 then .Request
    else if class_bits = 0b01 then .Indication
    else if class_bits = 0b10 then .SuccessResponse
    else .ErrorResponse
  return { method := method, class_ := class_ }

/-- The 96-bit transaction id `[u8; 12]`, as twelve explicit bytes. -/
structure TransactionId where
  b0 : Nat
  b1 : Nat
  b2 : Nat
  b3 : Nat
  b4 : Nat
  b5 : Nat
  b6 : Nat
  b7 : Nat
  b8 : Nat
  b9 : Nat
  b10 : Nat
  b11 : Nat
deriving DecidableEq

/-- The twelve transaction-id bytes in wire order. -/
def TransactionId.toList (t : TransactionId) : List Nat :=
  [t.b0, t.b1, t.b2, t.b3, t.b4, t.b5, t.b6, t.b7, t.b8, t.b9, t.b10, t.b11]

/-- `Message` from src/stun/message.rs: the attributes section is kept as
raw bytes, exactly as in the source. -/
structure Message where
  message_type : MessageType
  length : Nat
  transaction_id : TransactionId
  attributes : List Nat
deriving DecidableEq

/-- `Message::parse` from src/stun/message.rs. The source checks
`data.len() < 20` and then indexes bytes 0..19; here the twenty header
bytes are exposed by the match, any shorter input falls to the second arm
(`MessageTooShort`). The checks occur in source order: message type,
magic cookie, then declared length against the available bytes. -/
def Message.parse (data : List Nat) : Except StunError Message :=
  match data with
  | d0 :: d1 :: d2 :: d3 :: d4 :: d5 :: d6 :: d7 ::
    t0 :: t1 :: t2 :: t3 :: t4 :: t5 :: t6 :: t7 :: t8 :: t9 :: t10 :: t11 :: rest => do
      let msg_type_value := d0 * 256 + d1
      let message_type ← MessageType.from_u16 msg_type_value
      let length := d2 * 256 + d3
      let magic_cookie := d4 * 16777216 + d5 * 65536 + d6 * 256 + d7
      if magic_cookie ≠ MAGIC_COOKIE then
        throw .InvalidMagicCookie
      else if rest.length < length then
        throw .InvalidMessageLength
      else
        return { message_type := message_type
                 length := length
                 transaction_id := ⟨t0, t1, t2, t3, t4, t5, t6, t7, t8, t9, t10, t11⟩
                 attributes := rest.take length }
  | _ => .error .MessageTooShort

/-- `Message::serialize` from src/stun/message.rs: type, length
(`attributes.len() as u16`), magic cookie, transaction id, raw attributes,
all big-endian. -/
def Message.serialize (m : Message) : List Nat :=
  let tv := m.message_type.as_u16
  let len := m.attributes.length % 65536
  tv / 256 % 256 :: tv % 256 ::
  len / 256 % 256 :: len % 256 ::
  0x21 :: 0x12 :: 0xA4 :: 0x42 ::
  m.transaction_id.toList ++ m.attributes

/-- `RawAttribute` from src/stun/attributes.rs. -/
structure RawAttribute where
  attribute_type : Nat
  value : List Nat
deriving DecidableEq

/-- `RawAttribute::parse` from src/stun/attributes.rs. Returns the
attribute and the number of consumed bytes `4 + ((length + 3) & !3)`
(the `u16` mask `!3` is 0xFFFC). -/
def RawAttribute.parse (data : List Nat) : Except StunError (RawAttribute × Nat) :=
  match data with
  | t0 :: t1 :: l0 :: l1 :: rest =>
      let attribute_type := t0 * 256 + t1
      let length := l0 * 256 + l1
      if rest.length < length then
        .error .InvalidAttribute
      else
        let padded_length := Nat.land (length + 3) 0xFFFC
        .ok (⟨attribute_type, rest.take length⟩, 4 + padded_length)
  | _ => .error .InvalidAttribute

/-- `RawAttribute::serialize` from src/stun/attributes.rs: type, length
(`value.len() as u16`), value, zero padding to a 4-byte boundary. -/
def RawAttribute.serialize (a : RawAttribute) : List Nat :=
  let len := a.value.length % 65536
  a.attribute_type / 256 % 256 :: a.attribute_type % 256 ::
  len / 256 % 256 :: len % 256 ::
  a.value ++ List.replicate ((4 - a.value.length % 4) % 4) 0

/-! ### XOR-PEER-ADDRESS codec, from src/turn/data.rs -/

/-- An IP address: `v4` carries the address as the `u32`
`u32::from_be_bytes(octets)`, `v6` carries the sixteen octets. -/
inductive IpAddr where
  | v4 (ip : Nat)
  | v6 (o0 o1 o2 o3 o4 o5 o6 o7 o8 o9 o10 o11 o12 o13 o14 o15 : Nat)
deriving DecidableEq

/-- `std::net::SocketAddr`: an IP address and a port. -/
structure SocketAddr where
  ip : IpAddr
  port : Nat
deriving DecidableEq

/-- `parse_xor_peer_address` from src/turn/data.rs. The source checks
`data.len() < 8`, reads the family byte and the XOR port, then
un-XORs an IPv4 (4 bytes with the magic cookie) or IPv6 address
(first 4 bytes with the magic-cookie bytes, next 12 with the
transaction id). -/
def parse_xor_peer_address (data : List Nat) (transaction_id : TransactionId) :
    Option SocketAddr :=
  if data.length < 8 then none else
  match data with
  | _pad :: family :: p0 :: p1 :: rest =>
      let xor_port := p0 * 256 + p1
      let port := Nat.xor xor_port (MAGIC_COOKIE >>> 16)
      if family = 0x01 then
        match rest with
        | x0 :: x1 :: x2 :: x3 :: _ =>
            let xor_ip := x0 * 16777216 + x1 * 65536 + x2 * 256 + x3
            some ⟨IpAddr.v4 (Nat.xor xor_ip MAGIC_COOKIE), port⟩
        | _ => none
      else if family = 0x02 then
        if data.length < 20 then none else
        match rest with
        | x0 :: x1 :: x2 :: x3 :: x4 :: x5 :: x6 :: x7 ::
          x8 :: x9 :: x10 :: x11 :: x12 :: x13 :: x14 :: x15 :: _ =>
            some ⟨IpAddr.v6
              (Nat.xor x0 0x21) (Nat.xor x1 0x12) (Nat.xor x2 0xA4) (Nat.xor x3 0x42)
              (Nat.xor x4 transaction_id.b0) (Nat.xor x5 transaction_id.b1)
              (Nat.xor x6 transaction_id.b2) (Nat.xor x7 transaction_id.b3)
              (Nat.xor x8 transaction_id.b4) (Nat.xor x9 transaction_id.b5)
              (Nat.xor x10 transaction_id.b6) (Nat.xor x11 transaction_id.b7)
              (Nat.xor x12 transaction_id.b8) (Nat.xor x13 transaction_id.b9)
              (Nat.xor x14 transaction_id.b10) (Nat.xor x15 transaction_id.b11), port⟩
        | _ => none
      else none
  | _ => none

/-- `create_xor_peer_address_attr` from src/turn/data.rs: padding byte,
family byte, XOR port (`port ^ (MAGIC_COOKIE >> 16)`, big-endian), then
the XOR-obfuscated IP bytes. -/
def create_xor_peer_address_attr (addr : SocketAddr) (transaction_id : TransactionId) :
    RawAttribute :=
  let xor_port := Nat.xor addr.port (MAGIC_COOKIE >>> 16)
  match addr.ip with
  | IpAddr.v4 ip =>
      let xor_ip := Nat.xor ip MAGIC_COOKIE
      ⟨0x0012,
        [0, 0x01, xor_port / 256 % 256, xor_port % 256,
         xor_ip / 16777216 % 256, xor_ip / 65536 % 256, xor_ip / 256 % 256, xor_ip % 256]⟩
  | IpAddr.v6 o0 o1 o2 o3 o4 o5 o6 o7 o8 o9 o10 o11 o12 o13 o14 o15 =>
      ⟨0x0012,
        [0, 0x02, xor_port / 256 % 256, xor_port % 256,
         Nat.xor o0 0x21, Nat.xor o1 0x12, Nat.xor o2 0xA4, Nat.xor o3 0x42,
         Nat.xor o4 transaction_id.b0, Nat.xor o5 transaction_id.b1,
         Nat.xor o6 transaction_id.b2, Nat.xor o7 transaction_id.b3,
         Nat.xor o8 transaction_id.b4, Nat.xor o9 transaction_id.b5,
         Nat.xor o10 transaction_id.b6, Nat.xor o11 transaction_id.b7,
         Nat.xor o12 transaction_id.b8, Nat.xor o13 transaction_id.b9,
         Nat.xor o14 transaction_id.b10, Nat.xor o15 transaction_id.b11]⟩

/-! ### HMAC-SHA1, the `hmac`/`sha1` crates used by src/stun/auth.rs -/

/-- 32-bit left rotation (`u32::rotate_left`). -/
def rotl32 (n x : Nat) : Nat :=
  (Nat.lor ((x % 4294967296) <<< n) ((x % 4294967296) >>> (32 - n))) % 4294967296

/-- Big-endian bytes of a 32-bit word. -/
def be4 (x : Nat) : List Nat :=
  [x / 16777216 % 256, x / 65536 % 256, x / 256 % 256, x % 256]

/-- SHA-1 message padding: `0x80`, zeros to 56 mod 64, then the 64-bit
big-endian bit length. -/
def sha1Pad (msg : List Nat) : List Nat :=
  let ml := msg.length * 8
  let zeros := (119 - msg.length % 64) % 64
  msg ++ 0x80 :: List.replicate zeros 0 ++
    [ml / 72057594037927936 % 256, ml / 281474976710656 % 256,
     ml / 1099511627776 % 256, ml / 4294967296 % 256,
     ml / 16777216 % 256, ml / 65536 % 256, ml / 256 % 256, ml % 256]

/-- Split a byte list into 64-byte chunks. -/
def chunks64 (l : List Nat) : List (List Nat) :=
  match l with
  | [] => []
  | x :: xs => ((x :: xs).take 64) :: chunks64 ((x :: xs).drop 64)
termination_by l.length
decreasing_by simp; omega

/-- The sixteen initial 32-bit schedule words of a 64-byte chunk. -/
def sha1InitW (chunk : List Nat) : List Nat :=
  (List.range 16).map fun i =>
    chunk.getD (4 * i) 0 * 16777216 + chunk.getD (4 * i + 1) 0 * 65536 +
    chunk.getD (4 * i + 2) 0 * 256 + chunk.getD (4 * i + 3) 0

/-- Extend the schedule by `n` words, each the 1-rotation of the XOR of
the words 3, 8, 14 and 16 positions back. -/
def sha1ExtendW : Nat → List Nat → List Nat
  | 0, w => w
  | n + 1, w =>
      let next := rotl32 1 (Nat.xor
        (Nat.xor (w.getD (w.length - 3) 0) (w.getD (w.length - 8) 0))
        (Nat.xor (w.getD (w.length - 14) 0) (w.getD (w.length - 16) 0)))
      sha1ExtendW n (w ++ [next])

/-- The five SHA-1 chaining words. -/
structure Sha1State where
  h0 : Nat
  h1 : Nat
  h2 : Nat
  h3 : Nat
  h4 : Nat
deriving DecidableEq

/-- One SHA-1 compression over a 64-byte chunk (80 rounds). -/
def sha1Compress (h : Sha1State) (chunk : List Nat) : Sha1State :=
  let w := sha1ExtendW 64 (sha1InitW chunk)
  let step := fun (st : Nat × Nat × Nat × Nat × Nat) (i : Nat) =>
    let (a, b, c, d, e) := st
    let f :=
      if i < 20 then Nat.lor (Nat.land b c) (Nat.land (Nat.xor b 4294967295) d)
      else if i < 40 then Nat.xor (Nat.xor b c) d
      else if i < 60 then Nat.lor (Nat.lor (Nat.land b c) (Nat.land b d)) (Nat.land c d)
      else Nat.xor (Nat.xor b c) d
    let k :=
      if i < 20 then 0x5A827999
      else if i < 40 then 0x6ED9EBA1
      else if i < 60 then 0x8F1BBCDC
      else 0xCA62C1D6
    let temp := (rotl32 5 a + f + e + k + w.getD i 0) % 4294967296
    (temp, a, rotl32 30 b, c, d)
  let r := (List.range 80).foldl step (h.h0, h.h1, h.h2, h.h3, h.h4)
  ⟨(h.h0 + r.1) % 4294967296, (h.h1 + r.2.1) % 4294967296,
   (h.h2 + r.2.2.1) % 4294967296, (h.h3 + r.2.2.2.1) % 4294967296,
   (h.h4 + r.2.2.2.2) % 4294967296⟩

/-- SHA-1 of a byte list; twenty output bytes. -/
def sha1 (msg : List Nat) : List Nat :=
  let final := (chunks64 (sha1Pad msg)).foldl sha1Compress
    ⟨0x67452301, 0xEFCDAB89, 0x98BADCFE, 0x10325476, 0xC3D2E1F0⟩
  be4 final.h0 ++ be4 final.h1 ++ be4 final.h2 ++ be4 final.h3 ++ be4 final.h4

/-- HMAC key preprocessing (RFC 2104, as implemented by the `hmac`
crate): keys longer than the 64-byte block are hashed, then the key is
zero-padded to 64 bytes. -/
def hmacBlockKey (key : List Nat) : List Nat :=
  let k := if key.length > 64 then sha1 key else key
  k ++ List.replicate (64 - k.length) 0

/-- HMAC-SHA1 (`Hmac<Sha1>` in src/stun/auth.rs). -/
def hmac_sha1 (key msg : List Nat) : List Nat :=
  let k0 := hmacBlockKey key
  let inner := sha1 (k0.map (fun b => Nat.xor b 0x36) ++ msg)
  sha1 (k0.map (fun b => Nat.xor b 0x5C) ++ inner)

/-! ### Message integrity, from src/stun/auth.rs -/

/-- `calculate_message_integrity` from src/stun/auth.rs: serialize the
message, overwrite the length field with `length + 24` (the
MESSAGE-INTEGRITY TLV size), HMAC-SHA1 the result. The
`HmacSha1::new_from_slice` error branch is dead (HMAC accepts keys of
any length), so the function is total here. -/
def calculate_message_integrity (message : Message) (key : List Nat) : List Nat :=
  let msg_bytes := message.serialize
  let new_length := message.length + 24
  let patched := (msg_bytes.set 2 ((new_length >>> 8) % 256)).set 3 (new_length % 256)
  hmac_sha1 key patched

/-- The attribute scan of `verify_message_integrity` in src/stun/auth.rs:
walk the attribute bytes, return the value and offset of the first
MESSAGE-INTEGRITY (type 0x0008) attribute. -/
def find_message_integrity (attrs : List Nat) (offset : Nat) :
    Except StunError (Option (List Nat × Nat)) :=
  if h : offset < attrs.length then
    match hp : RawAttribute.parse (attrs.drop offset) with
    | .error e => .error e
    | .ok (attr, consumed) =>
        if attr.attribute_type = 0x0008 then .ok (some (attr.value, offset))
        else find_message_integrity attrs (offset + consumed)
  else .ok none
termination_by attrs.length - offset
decreasing_by
  have hpos : 0 < consumed := by
    revert hp
    generalize attrs.drop offset = d
    intro hp
    rcases d with _ | ⟨t0, _ | ⟨t1, _ | ⟨l0, _ | ⟨l1, rest⟩⟩⟩⟩ <;>
      simp only [RawAttribute.parse, reduceCtorEq] at hp
    split at hp
    · exact absurd hp (by simp)
    · simp only [Except.ok.injEq, Prod.mk.injEq] at hp
      omega
  omega

/-- `verify_message_integrity` from src/stun/auth.rs: locate the
MESSAGE-INTEGRITY attribute, truncate the message before it, set
`length` to the truncation point, recompute and compare. -/
def verify_message_integrity (message : Message) (key : List Nat) :
    Except StunError Bool :=
  match find_message_integrity message.attributes 0 with
  | .error e => .error e
  | .ok none => .ok false
  | .ok (some (integrity_value, integrity_offset)) =>
      let verify_msg : Message :=
        { message with
          attributes := message.attributes.take integrity_offset,
          length := integrity_offset % 65536 }
      let calculated := calculate_message_integrity verify_msg key
      .ok (calculated == integrity_value)

/-- Appending a MESSAGE-INTEGRITY attribute, as done by the repository
in src/stun/auth.rs (test_message_integrity_round_trip): extend the
attributes with the serialized 0x0008 TLV holding
`calculate_message_integrity(message, key)` and refresh the length. -/
def append_message_integrity (message : Message) (key : List Nat) : Message :=
  let integrity := calculate_message_integrity message key
  let attrs := message.attributes ++ RawAttribute.serialize ⟨0x0008, integrity⟩
  { message with attributes := attrs, length := attrs.length % 65536 }

/-! ### Allocations, from src/turn/allocation.rs -/

/-- `HashMap::get` on an association list. -/
def lookupA {κ ν : Type} [DecidableEq κ] (k : κ) : List (κ × ν) → Option ν
  | [] => none
  | (k', v) :: t => if k' = k then some v else lookupA k t

/-- `HashMap::insert` on an association list: replace in place or append. -/
def insertA {κ ν : Type} [DecidableEq κ] (k : κ) (v : ν) : List (κ × ν) → List (κ × ν)
  | [] => [(k, v)]
  | (k', v') :: t => if k' = k then (k', v) :: t else (k', v') :: insertA k v t

/-- `DEFAULT_ALLOCATION_LIFETIME` (600 s) from src/turn/allocation.rs. -/
def DEFAULT_ALLOCATION_LIFETIME : Nat := 600

/-- `MAX_ALLOCATION_LIFETIME` (3600 s) from src/turn/allocation.rs. -/
def MAX_ALLOCATION_LIFETIME : Nat := 3600

/-- `Allocation` from src/turn/allocation.rs. Instants are `Nat`
seconds; the relay UDP socket is identified by its bound address. -/
structure Allocation where
  username : String
  relayed_address : SocketAddr
  client_address : SocketAddr
  created_at : Nat
  lifetime : Nat
  relay_socket : SocketAddr
  permissions : List (SocketAddr × Nat)
  channel_bindings : List (Nat × SocketAddr)
deriving DecidableEq

/-- `Allocation::new` from src/turn/allocation.rs. -/
def Allocation.new (username : String) (relayed_address client_address relay_socket : SocketAddr)
    (now : Nat) : Allocation :=
  { username := username
    relayed_address := relayed_address
    client_address := client_address
    created_at := now
    lifetime := DEFAULT_ALLOCATION_LIFETIME
    relay_socket := relay_socket
    permissions := []
    channel_bindings := [] }

/-- `Allocation::is_expired` from src/turn/allocation.rs. -/
def Allocation.is_expired (a : Allocation) (now : Nat) : Bool :=
  decide (now - a.created_at ≥ a.lifetime)

/-- `Allocation::refresh` from src/turn/allocation.rs; the pair carries
the `Result` and the (possibly unchanged) allocation. -/
def Allocation.refresh (a : Allocation) (lifetime now : Nat) :
    Except TurnError Unit × Allocation :=
  if lifetime > MAX_ALLOCATION_LIFETIME then (.error .BadRequest, a)
  else (.ok (), { a with lifetime := lifetime, created_at := now })

/-- `Allocation::add_permission` from src/turn/allocation.rs. -/
def Allocation.add_permission (a : Allocation) (peer_address : SocketAddr) (now : Nat) :
    Allocation :=
  { a with permissions := insertA peer_address now a.permissions }

/-- `Allocation::has_permission` from src/turn/allocation.rs: the grant
must be younger than 300 seconds. -/
def Allocation.has_permission (a : Allocation) (peer_address : SocketAddr) (now : Nat) :
    Bool :=
  match lookupA peer_address a.permissions with
  | some granted_at => decide (now - granted_at < 300)
  | none => false

/-- `Allocation::add_channel_binding` from src/turn/allocation.rs:
reject channel numbers outside [0x4000, 0x7FFF], otherwise insert the
binding and grant the implicit permission. -/
def Allocation.add_channel_binding (a : Allocation) (channel_number : Nat)
    (peer_address : SocketAddr) (now : Nat) : Except TurnError Unit × Allocation :=
  if ¬(0x4000 ≤ channel_number ∧ channel_number ≤ 0x7FFF) then
    (.error .BadRequest, a)
  else
    (.ok (),
      ({ a with channel_bindings := insertA channel_number peer_address a.channel_bindings
       } : Allocation).add_permission peer_address now)

/-- `Allocation::get_peer_by_channel` from src/turn/allocation.rs. -/
def Allocation.get_peer_by_channel (a : Allocation) (channel_number : Nat) :
    Option SocketAddr :=
  lookupA channel_number a.channel_bindings

/-- `Allocation::cleanup_expired_permissions` from src/turn/allocation.rs:
retain permissions younger than 300 seconds. -/
def Allocation.cleanup_expired_permissions (a : Allocation) (now : Nat) : Allocation :=
  { a with permissions := a.permissions.filter (fun p => decide (now - p.2 < 300)) }

/-- `AllocationManager` from src/turn/allocation.rs. -/
structure AllocationManager where
  allocations : List (SocketAddr × Allocation)
  relay_address_pool : List SocketAddr
deriving DecidableEq

/-- `AllocationManager::get_allocation` from src/turn/allocation.rs:
returns a clone of the stored allocation. -/
def AllocationManager.get_allocation (s : AllocationManager) (client_address : SocketAddr) :
    Option Allocation :=
  lookupA client_address s.allocations

/-- `AllocationManager::create_allocation` from src/turn/allocation.rs:
pop the last pool address (`Vec::pop`), bind the relay socket
(`bind_fails` models the I/O outcome; on failure the address is pushed
back), build the allocation and insert it under the client address.
No check for an existing allocation is made. -/
def AllocationManager.create_allocation (s : AllocationManager) (username : String)
    (client_address : SocketAddr) (now : Nat) (bind_fails : Bool) :
    Except TurnError Allocation × AllocationManager :=
  match s.relay_address_pool.getLast? with
  | none => (.error .InsufficientCapacity, s)
  | some relayed_address =>
      let pool := s.relay_address_pool.dropLast
      if bind_fails then
        (.error .InsufficientCapacity,
         { s with relay_address_pool := pool ++ [relayed_address] })
      else
        let allocation :=
          Allocation.new username relayed_address client_address relayed_address now
        (.ok allocation,
         { allocations := insertA client_address allocation s.allocations
           relay_address_pool := pool })

/-! ### Request and indication handlers, from src/server/message_handler.rs -/

/-- `send_error_response` from src/server/message_handler.rs: an
Allocate ErrorResponse whose only attribute is ERROR-CODE
(`[code/100, code%100, 0, 0]`); no Realm, no Nonce. -/
def send_error_response (transaction_id : TransactionId) (error_code : Nat) : Message :=
  let error_data := [error_code / 100 % 256, error_code % 100, 0, 0]
  let attrs := RawAttribute.serialize ⟨0x0009, error_data⟩
  { message_type := ⟨.Allocate, .ErrorResponse⟩
    length := attrs.length % 65536
    transaction_id := transaction_id
    attributes := attrs }

/-- The `request.username.is_none() || request.nonce.is_none()` branch
of the Allocate arm of `handle_request` in
src/server/message_handler.rs: the handler builds an
`AllocateResponse::error` carrying the realm and the fresh nonce but
never serializes it; the only datagram written to the client socket is
the one from `send_error_response(tx, 401, ..)`. Returns the messages
sent. -/
def handleAllocateNoCredentials (transaction_id : TransactionId) (realm : String)
    (fresh_nonce : List Nat) : List Message :=
  let _response := (transaction_id, 401, "Unauthorized", some realm, some fresh_nonce)
  [send_error_response transaction_id 401]

/-- The CreatePermission arm of `handle_request` in
src/server/message_handler.rs: `get_allocation` returns a clone, the
peer permissions are added to that local clone, and the manager map is
never written back. Returns the manager state afterwards. -/
def handleCreatePermission (s : AllocationManager) (src_addr : SocketAddr)
    (peer_addresses : List SocketAddr) (now : Nat) : AllocationManager :=
  match s.get_allocation src_addr with
  | some allocation =>
      let _clone := peer_addresses.foldl (fun a p => a.add_permission p now) allocation
      s
  | none => s

/-- The Send arm of `handle_indication` in
src/server/message_handler.rs, for a parsed Send indication naming
`peer_address` with payload `data`: the first component lists the
datagrams written to the allocation's relay socket, the second the
replies written back to the client socket (always none). -/
def handleSendIndication (s : AllocationManager) (src_addr peer_address : SocketAddr)
    (data : List Nat) (now : Nat) : List (List Nat × SocketAddr) × List (List Nat) :=
  match s.get_allocation src_addr with
  | some allocation =>
      if allocation.has_permission peer_address now then ([(data, peer_address)], [])
      else ([], [])
  | none => ([], [])

/-! ### Observation helpers and concrete states used by the theorems -/

/-- Whether the raw attribute bytes contain an attribute of type `t`,
scanning exactly as the handlers scan (`RawAttribute::parse` loop). -/
def contains_attribute_type (attrs : List Nat) (offset t : Nat) : Bool :=
  if h : offset < attrs.length then
    match hp : RawAttribute.parse (attrs.drop offset) with
    | .error _ => false
    | .ok (attr, consumed) =>
        if attr.attribute_type = t then true
        else contains_attribute_type attrs (offset + consumed) t
  else false
termination_by attrs.length - offset
decreasing_by
  have hpos : 0 < consumed := by
    revert hp
    generalize attrs.drop offset = d
    intro hp
    rcases d with _ | ⟨t0, _ | ⟨t1, _ | ⟨l0, _ | ⟨l1, rest⟩⟩⟩⟩ <;>
      simp only [RawAttribute.parse, reduceCtorEq] at hp
    split at hp
    · exact absurd hp (by simp)
    · simp only [Except.ok.injEq, Prod.mk.injEq] at hp
      omega
  omega

/-- Concatenation of serialized attributes: the attribute bytes of a
message whose attribute section is a well-formed TLV sequence. -/
def attrsConcat (l : List RawAttribute) : List Nat :=
  (l.map RawAttribute.serialize).flatten

/-- The §3 data-model invariant: every peer bound to a channel also
appears as a key of `permissions`. -/
def permissions_cover_bindings (a : Allocation) : Bool :=
  a.channel_bindings.all fun b => (lookupA b.2 a.permissions).isSome

/-- Example client address 10.0.0.1:54321. -/
def egClient : SocketAddr := ⟨IpAddr.v4 0x0A000001, 54321⟩

/-- Example peer address 203.0.113.1:80. -/
def egPeer1 : SocketAddr := ⟨IpAddr.v4 0xCB007101, 80⟩

/-- Example peer address 203.0.113.2:81. -/
def egPeer2 : SocketAddr := ⟨IpAddr.v4 0xCB007102, 81⟩

/-- Example relay address 127.0.0.1:49200. -/
def egRelay1 : SocketAddr := ⟨IpAddr.v4 0x7F000001, 49200⟩

/-- Example relay address 127.0.0.1:49201. -/
def egRelay2 : SocketAddr := ⟨IpAddr.v4 0x7F000001, 49201⟩

/-- Example transaction id 01..0C. -/
def egTx : TransactionId := ⟨1, 2, 3, 4, 5, 6, 7, 8, 9, 10, 11, 12⟩

/-- Example allocation created at time 0 for `egClient`. -/
def egAllocation : Allocation := Allocation.new "testuser" egRelay1 egClient egRelay1 0

/-- Example manager state: `egClient` holds a live allocation, one
relay address remains pooled. -/
def egManager : AllocationManager := ⟨[(egClient, egAllocation)], [egRelay2]⟩

/-- Example allocation with channel 0x4000 bound to `egPeer1` and the
matching permission granted at time 0. -/
def egBoundAllocation : Allocation :=
  { egAllocation with
    channel_bindings := [(0x4000, egPeer1)]
    permissions := [(egPeer1, 0)] }

/-- An example fresh nonce: 32 hex characters. -/
def egNonce : List Nat := List.replicate 32 0x61

/-- An example message with no attributes. -/
def egMessage : Message := ⟨⟨.Binding, .Request⟩, 0, egTx, []⟩

/-! ## Association-list lemmas -/

/-- `lookupA` after `insertA`: the inserted key maps to the new value,
other keys are unaffected. -/
theorem lookupA_insertA {κ ν : Type} [DecidableEq κ] (k k' : κ) (v : ν)
    (l : List (κ × ν)) :
    lookupA k (insertA k' v l) = if k' = k then some v else lookupA k l := by
  induction l with
  | nil => by_cases h : k' = k <;> simp [insertA, lookupA, h]
  | cons hd tl ih =>
      obtain ⟨a, b⟩ := hd
      by_cases hak' : a = k' <;> by_cases hak : a = k
      · subst hak'; subst hak; simp [insertA, lookupA]
      · subst hak'; simp [insertA, lookupA, hak]
      · subst hak
        have hne : k' ≠ a := fun h => hak' h.symm
        simp [insertA, lookupA, hak', hne]
      · simp [insertA, lookupA, hak', hak, ih]

/-- Re-inserting the value a key already holds leaves the list unchanged. -/
theorem insertA_lookup_self {κ ν : Type} [DecidableEq κ] {k : κ} {v : ν}
    {l : List (κ × ν)} (h : lookupA k l = some v) : insertA k v l = l := by
  induction l with
  | nil => simp [lookupA] at h
  | cons hd tl ih =>
      obtain ⟨a, b⟩ := hd
      by_cases hak : a = k
      · simp [lookupA, hak] at h
        simp [insertA, hak, h]
      · simp [lookupA, hak] at h
        simp [insertA, hak, ih h]

/-- Membership in `insertA`: the new pair or an old member. -/
theorem mem_insertA {κ ν : Type} [DecidableEq κ] {x : κ × ν} {k : κ} {v : ν}
    {l : List (κ × ν)} (h : x ∈ insertA k v l) : x = (k, v) ∨ x ∈ l := by
  induction l with
  | nil => simp [insertA] at h; simp [h]
  | cons hd tl ih =>
      obtain ⟨a, b⟩ := hd
      by_cases hak : a = k
      · subst hak
        simp [insertA] at h
        rcases h with h | h
        · exact Or.inl (by simp [h])
        · exact Or.inr (List.mem_cons_of_mem _ h)
      · simp [insertA, hak] at h
        rcases h with h | h
        · exact Or.inr (by simp [h])
        · rcases ih h with h' | h'
          · exact Or.inl h'
          · exact Or.inr (List.mem_cons_of_mem _ h')

/-- Plain-match unfolding of the `contains_attribute_type` scan. -/
theorem contains_attribute_type_eq (attrs : List Nat) (offset t : Nat) :
    contains_attribute_type attrs offset t =
      if offset < attrs.length then
        match RawAttribute.parse (attrs.drop offset) with
        | .error _ => false
        | .ok (attr, consumed) =>
            if attr.attribute_type = t then true
            else contains_attribute_type attrs (offset + consumed) t
      else false := by
  by_cases h : offset < attrs.length
  · conv_lhs => rw [contains_attribute_type]
    rw [dif_pos h, if_pos h]
    rcases hp : RawAttribute.parse (attrs.drop offset) with e | ⟨attr, consumed⟩ <;>
      simp [hp]
  · conv_lhs => rw [contains_attribute_type]
    rw [dif_neg h, if_neg h]

/-! ## C1 -/

/-- C1: the claim fails on the code. After the CreatePermission handler
processes XOR-PEER-ADDRESS `egPeer1` from client `egClient`, which holds
a live allocation, the allocation stored in the manager still does NOT
have the permission: the handler adds permissions to the local clone
returned by `get_allocation` and the manager state is returned
unchanged. -/
theorem createPermission_mutation_lost :
    ((handleCreatePermission egManager egClient [egPeer1] 10).get_allocation
        egClient).map (fun a => a.has_permission egPeer1 10) = some false ∧
    handleCreatePermission egManager egClient [egPeer1] 10 = egManager := by
  constructor <;> rfl

/-! ## C2 -/

/-- C2: the claim fails on the code. `egManager` already holds a live
allocation for `egClient`, yet `create_allocation` does not fail with
AllocationMismatch: it pops the last pooled relay address (the pool
drops from one entry to none) and overwrites the stored allocation,
leaking the old relay address. -/
theorem create_allocation_ignores_existing :
    (egManager.get_allocation egClient).isSome = true ∧
    (egManager.create_allocation "alice" egClient 5 false).fst ≠
      .error .AllocationMismatch ∧
    (egManager.create_allocation "alice" egClient 5 false).snd.relay_address_pool
      = [] ∧
    ((egManager.create_allocation "alice" egClient 5 false).snd.get_allocation
        egClient).map (fun a => a.relayed_address) = some egRelay2 := by
  refine ⟨rfl, ?_, rfl, rfl⟩
  intro h
  simp [AllocationManager.create_allocation, egManager] at h

/-! ## C3 -/

/-- C3: the claim fails on the code. On an Allocate request with missing
Username/Nonce the handler sends exactly one message: an Allocate
ErrorResponse with the request's transaction id whose attribute bytes
hold an ERROR-CODE attribute (0x0009) but NO Realm (0x0014) and NO
Nonce (0x0015) — the realm and fresh nonce are built into an
`AllocateResponse` that is then discarded. -/
theorem allocate_401_lacks_realm_and_nonce :
    handleAllocateNoCredentials egTx "example.org" egNonce
      = [send_error_response egTx 401] ∧
    (send_error_response egTx 401).message_type
      = ⟨.Allocate, .ErrorResponse⟩ ∧
    (send_error_response egTx 401).transaction_id = egTx ∧
    contains_attribute_type (send_error_response egTx 401).attributes 0 0x0009
      = true ∧
    contains_attribute_type (send_error_response egTx 401).attributes 0 0x0014
      = false ∧
    contains_attribute_type (send_error_response egTx 401).attributes 0 0x0015
      = false := by
  have hA : (send_error_response egTx 401).attributes = [0, 9, 0, 4, 4, 1, 0, 0] := rfl
  refine ⟨rfl, rfl, rfl, ?_, ?_, ?_⟩
  · simp [contains_attribute_type, send_error_response, RawAttribute.serialize,
      RawAttribute.parse]
  · rw [hA, contains_attribute_type_eq]
    norm_num [RawAttribute.parse]
    rw [contains_attribute_type_eq]
    norm_num
    exact fun hlt => absurd hlt (by decide)
  · rw [hA, contains_attribute_type_eq]
    norm_num [RawAttribute.parse]
    rw [contains_attribute_type_eq]
    norm_num
    exact fun hlt => absurd hlt (by decide)

/-! ## C4 -/

/-- C4: for every Send indication from `src` naming peer `peer` with
payload `data`, the handler writes `data` to the relay socket addressed
to `peer` iff an allocation exists for `src` with a valid (unexpired)
permission for `peer`; otherwise nothing is written to the relay
socket, and no reply is ever sent to the client. -/
theorem send_indication_forward_iff (s : AllocationManager) (src peer : SocketAddr)
    (data : List Nat) (now : Nat) :
    ((handleSendIndication s src peer data now).fst = [(data, peer)] ↔
      ∃ a, s.get_allocation src = some a ∧ a.has_permission peer now = true) ∧
    ((¬ ∃ a, s.get_allocation src = some a ∧ a.has_permission peer now = true) →
      (handleSendIndication s src peer data now).fst = []) ∧
    (handleSendIndication s src peer data now).snd = [] := by
  rcases hga : s.get_allocation src with _ | a
  · simp [handleSendIndication, hga]
  · by_cases hperm : a.has_permission peer now <;>
      simp [handleSendIndication, hga, hperm]

/-- Witness for C4 at a concrete state with a live allocation. -/
theorem send_indication_forward_iff_witness :
    ((handleSendIndication egManager egClient egPeer1 [104, 105] 10).fst
        = [([104, 105], egPeer1)] ↔
      ∃ a, egManager.get_allocation egClient = some a ∧
        a.has_permission egPeer1 10 = true) ∧
    ((¬ ∃ a, egManager.get_allocation egClient = some a ∧
        a.has_permission egPeer1 10 = true) →
      (handleSendIndication egManager egClient egPeer1 [104, 105] 10).fst = []) ∧
    (handleSendIndication egManager egClient egPeer1 [104, 105] 10).snd = [] :=
  send_indication_forward_iff egManager egClient egPeer1 [104, 105] 10

/-! ## C5 -/

/-- C5: the claim fails on the code. Channel 0x4000 of
`egBoundAllocation` is bound to `egPeer1`, yet rebinding it to the
different peer `egPeer2` does NOT fail BadRequest: it succeeds and
overwrites the binding. -/
theorem add_channel_binding_rebind_succeeds :
    egBoundAllocation.get_peer_by_channel 0x4000 = some egPeer1 ∧
    egPeer1 ≠ egPeer2 ∧
    (egBoundAllocation.add_channel_binding 0x4000 egPeer2 5).fst = .ok () ∧
    (egBoundAllocation.add_channel_binding 0x4000 egPeer2 5).snd.get_peer_by_channel
      0x4000 = some egPeer2 := by
  refine ⟨rfl, ?_, rfl, rfl⟩
  decide

/-- C5 amended: `add_channel_binding(ch, peer)` fails BadRequest,
leaving the allocation unchanged, exactly when `ch` is outside
[0x4000, 0x7FFF]; for in-range `ch` it always succeeds, overwriting any
existing binding of `ch` and stamping the peer's permission. In
particular rebinding the same channel to the same peer is idempotent on
the bindings and refreshes the permission; rebinding to a different
peer or double-binding a peer is NOT rejected. -/
theorem add_channel_binding_spec (a : Allocation) (ch : Nat) (peer : SocketAddr)
    (now : Nat) :
    (¬(0x4000 ≤ ch ∧ ch ≤ 0x7FFF) →
      a.add_channel_binding ch peer now = (.error .BadRequest, a)) ∧
    (0x4000 ≤ ch → ch ≤ 0x7FFF →
      a.add_channel_binding ch peer now =
        (.ok (), { a with
          channel_bindings := insertA ch peer a.channel_bindings
          permissions := insertA peer now a.permissions })) ∧
    (0x4000 ≤ ch → ch ≤ 0x7FFF → a.get_peer_by_channel ch = some peer →
      ((a.add_channel_binding ch peer now).snd.channel_bindings
          = a.channel_bindings ∧
       (a.add_channel_binding ch peer now).snd.has_permission peer now = true)) := by
  refine ⟨?_, ?_, ?_⟩
  · intro h
    simp [Allocation.add_channel_binding, h]
  · intro h1 h2
    simp [Allocation.add_channel_binding, Allocation.add_permission, h1, h2]
  · intro h1 h2 h3
    rw [Allocation.get_peer_by_channel] at h3
    constructor
    · simp [Allocation.add_channel_binding, Allocation.add_permission, h1, h2,
        insertA_lookup_self h3]
    · simp [Allocation.add_channel_binding, Allocation.add_permission,
        Allocation.has_permission, h1, h2, lookupA_insertA]

/-- Witness for C5 amended: channel 0x3FFF is rejected with the state
unchanged, channel 0x4000 is accepted, and the idempotent rebind case
holds at `egBoundAllocation`. -/
theorem add_channel_binding_spec_witness :
    (¬(0x4000 ≤ 0x3FFF ∧ 0x3FFF ≤ 0x7FFF) ∧
      egBoundAllocation.add_channel_binding 0x3FFF egPeer1 5
        = (.error .BadRequest, egBoundAllocation)) ∧
    (egBoundAllocation.add_channel_binding 0x4000 egPeer1 5 =
      (.ok (), { egBoundAllocation with
        channel_bindings := insertA 0x4000 egPeer1 egBoundAllocation.channel_bindings
        permissions := insertA egPeer1 5 egBoundAllocation.permissions })) ∧
    (egBoundAllocation.get_peer_by_channel 0x4000 = some egPeer1 ∧
      (egBoundAllocation.add_channel_binding 0x4000 egPeer1 5).snd.channel_bindings
        = egBoundAllocation.channel_bindings ∧
      (egBoundAllocation.add_channel_binding 0x4000 egPeer1 5).snd.has_permission
        egPeer1 5 = true) := by
  have h := add_channel_binding_spec egBoundAllocation 0x4000 egPeer1 5
  have h' := add_channel_binding_spec egBoundAllocation 0x3FFF egPeer1 5
  exact ⟨⟨by decide, h'.1 (by decide)⟩,
         h.2.1 (by decide) (by decide),
         rfl, h.2.2 (by decide) (by decide) rfl⟩

/-! ## C6 -/

/-- C6: the claim fails on the code. `egBoundAllocation` satisfies the
invariant (its bound peer has a permission), but
`cleanup_expired_permissions` at time 300 drops the expired permission
while keeping the channel binding, violating the invariant. -/
theorem cleanup_breaks_binding_invariant :
    permissions_cover_bindings egBoundAllocation = true ∧
    permissions_cover_bindings
      (egBoundAllocation.cleanup_expired_permissions 300) = false ∧
    (egBoundAllocation.cleanup_expired_permissions 300).channel_bindings
      = [(0x4000, egPeer1)] := by
  exact ⟨rfl, rfl, rfl⟩

/-- C6 amended: the invariant "every peer bound to a channel is a key
of `permissions`" holds for a fresh allocation and is preserved by
`refresh`, `add_permission` and `add_channel_binding`; it is NOT
preserved by `cleanup_expired_permissions` (see the counterexample). -/
theorem binding_invariant_preserved (u : String) (ra ca sock : SocketAddr)
    (a : Allocation) (lt now : Nat) (p : SocketAddr) (ch : Nat) :
    permissions_cover_bindings (Allocation.new u ra ca sock now) = true ∧
    (permissions_cover_bindings a = true →
      permissions_cover_bindings (a.refresh lt now).snd = true) ∧
    (permissions_cover_bindings a = true →
      permissions_cover_bindings (a.add_permission p now) = true) ∧
    (permissions_cover_bindings a = true →
      permissions_cover_bindings (a.add_channel_binding ch p now).snd = true) := by
  refine ⟨rfl, ?_, ?_, ?_⟩
  · intro h
    rw [Allocation.refresh]
    split <;> simpa [permissions_cover_bindings] using h
  · intro h
    rw [permissions_cover_bindings, List.all_eq_true] at h ⊢
    intro b hb
    have hh := h b hb
    simp only [Allocation.add_permission] at hb ⊢
    rw [lookupA_insertA]
    split
    · simp
    · exact hh
  · intro h
    rw [Allocation.add_channel_binding]
    split
    · simpa [permissions_cover_bindings] using h
    · rw [permissions_cover_bindings, List.all_eq_true] at h ⊢
      intro b hb
      simp only [Allocation.add_permission] at hb ⊢
      rcases mem_insertA hb with hb' | hb'
      · subst hb'
        rw [lookupA_insertA]
        simp
      · rw [lookupA_insertA]
        split
        · simp
        · exact h b hb'

/-- Witness for C6 amended, at `egBoundAllocation`. -/
theorem binding_invariant_preserved_witness :
    permissions_cover_bindings
      (Allocation.new "testuser" egRelay1 egClient egRelay1 0) = true ∧
    (permissions_cover_bindings egBoundAllocation = true →
      permissions_cover_bindings (egBoundAllocation.refresh 600 10).snd = true) ∧
    (permissions_cover_bindings egBoundAllocation = true →
      permissions_cover_bindings (egBoundAllocation.add_permission egPeer2 10)
        = true) ∧
    (permissions_cover_bindings egBoundAllocation = true →
      permissions_cover_bindings
        (egBoundAllocation.add_channel_binding 0x4001 egPeer2 10).snd = true) :=
  binding_invariant_preserved "testuser" egRelay1 egClient egRelay1
    egBoundAllocation 600 10 egPeer2 0x4001

/-! ## C7 -/

/-- Decoding inverts the method/class bit interleave. -/
theorem MessageType.from_as_u16 (t : MessageType) :
    MessageType.from_u16 t.as_u16 = .ok t := by
  obtain ⟨m, c⟩ := t
  cases m <;> cases c <;> rfl

/-- The encoded type word fits in sixteen bits. -/
theorem MessageType.as_u16_lt (t : MessageType) : t.as_u16 < 65536 := by
  obtain ⟨m, c⟩ := t
  cases m <;> cases c <;> decide

/-- C7: for every well-formed message (length field equal to the byte
length of the attributes, fitting in sixteen bits),
`Message::parse (Message::serialize m)` succeeds and returns `m`:
same method, class, transaction id, length and attribute bytes. -/
theorem parse_serialize_roundtrip (m : Message)
    (h1 : m.length = m.attributes.length) (h2 : m.attributes.length < 65536) :
    Message.parse m.serialize = .ok m := by
  obtain ⟨mt, len, ⟨b0, b1, b2, b3, b4, b5, b6, b7, b8, b9, b10, b11⟩, attrs⟩ := m
  dsimp only at h1 h2
  subst h1
  have htv : mt.as_u16 / 256 % 256 * 256 + mt.as_u16 % 256 = mt.as_u16 := by
    have := MessageType.as_u16_lt mt
    omega
  have hlen : attrs.length % 65536 = attrs.length := Nat.mod_eq_of_lt h2
  rw [Message.serialize]
  dsimp only [TransactionId.toList]
  simp only [List.cons_append, List.nil_append]
  rw [Message.parse]
  rw [htv, MessageType.from_as_u16]
  simp only [Except.bind, Except.pure, pure, bind]
  have hck : ¬(33 * 16777216 + 18 * 65536 + 164 * 256 + 66 ≠ MAGIC_COOKIE) := by
    decide
  rw [if_neg hck]
  rw [hlen]
  have hrecl : attrs.length / 256 % 256 * 256 + attrs.length % 256 = attrs.length := by
    omega
  rw [hrecl]
  rw [if_neg (by omega : ¬attrs.length < attrs.length)]
  rw [List.take_length]

/-- Witness for C7 at a concrete Allocate request with three attribute
bytes. -/
theorem parse_serialize_roundtrip_witness :
    Message.parse (Message.serialize ⟨⟨.Allocate, .Request⟩, 3, egTx, [1, 2, 3]⟩)
      = .ok ⟨⟨.Allocate, .Request⟩, 3, egTx, [1, 2, 3]⟩ :=
  parse_serialize_roundtrip ⟨⟨.Allocate, .Request⟩, 3, egTx, [1, 2, 3]⟩
    (by decide) (by decide)

/-! ## C10 -/

/-- C10: the claim fails on the code. This 20-byte input has bytes 4-7
different from the magic cookie, yet `Message::parse` reports
`InvalidMessageType`, not `InvalidMagicCookie`: the type word 0xFFFF is
rejected before the cookie is examined. -/
theorem parse_checks_type_before_cookie :
    Message.parse
        [255, 255, 0, 0, 0, 0, 0, 0, 0, 0, 0, 0, 0, 0, 0, 0, 0, 0, 0, 0]
      = .error .InvalidMessageType ∧
    ([255, 255, 0, 0, 0, 0, 0, 0, 0, 0, 0, 0, 0, 0, 0, 0, 0, 0, 0, 0] :
        List Nat).length = 20 ∧
    0 * 16777216 + 0 * 65536 + 0 * 256 + 0 ≠ MAGIC_COOKIE ∧
    StunError.InvalidMessageType ≠ StunError.InvalidMagicCookie := by
  refine ⟨rfl, rfl, ?_, ?_⟩ <;> decide

/-- C10 amended: `Message::parse` fails MessageTooShort on every input
shorter than 20 bytes; on inputs of at least 20 bytes it fails
InvalidMessageType whenever the type word decodes to an unknown method
(regardless of the cookie); InvalidMagicCookie when the type word is
known and bytes 4-7 differ from 0x2112A442; and InvalidMessageLength
when the type is known, the cookie matches, and the declared length
exceeds the bytes remaining after the header. -/
theorem parse_error_taxonomy :
    (∀ data : List Nat, data.length < 20 →
      Message.parse data = .error .MessageTooShort) ∧
    (∀ (d0 d1 d2 d3 d4 d5 d6 d7 t0 t1 t2 t3 t4 t5 t6 t7 t8 t9 t10 t11 : Nat)
       (rest : List Nat),
      MessageType.from_u16 (d0 * 256 + d1) = .error .InvalidMessageType →
      Message.parse (d0 :: d1 :: d2 :: d3 :: d4 :: d5 :: d6 :: d7 :: t0 :: t1 ::
          t2 :: t3 :: t4 :: t5 :: t6 :: t7 :: t8 :: t9 :: t10 :: t11 :: rest)
        = .error .InvalidMessageType) ∧
    (∀ (d0 d1 d2 d3 d4 d5 d6 d7 t0 t1 t2 t3 t4 t5 t6 t7 t8 t9 t10 t11 : Nat)
       (rest : List Nat),
      (∃ mt, MessageType.from_u16 (d0 * 256 + d1) = .ok mt) →
      d4 * 16777216 + d5 * 65536 + d6 * 256 + d7 ≠ MAGIC_COOKIE →
      Message.parse (d0 :: d1 :: d2 :: d3 :: d4 :: d5 :: d6 :: d7 :: t0 :: t1 ::
          t2 :: t3 :: t4 :: t5 :: t6 :: t7 :: t8 :: t9 :: t10 :: t11 :: rest)
        = .error .InvalidMagicCookie) ∧
    (∀ (d0 d1 d2 d3 d4 d5 d6 d7 t0 t1 t2 t3 t4 t5 t6 t7 t8 t9 t10 t11 : Nat)
       (rest : List Nat),
      (∃ mt, MessageType.from_u16 (d0 * 256 + d1) = .ok mt) →
      d4 * 16777216 + d5 * 65536 + d6 * 256 + d7 = MAGIC_COOKIE →
      rest.length < d2 * 256 + d3 →
      Message.parse (d0 :: d1 :: d2 :: d3 :: d4 :: d5 :: d6 :: d7 :: t0 :: t1 ::
          t2 :: t3 :: t4 :: t5 :: t6 :: t7 :: t8 :: t9 :: t10 :: t11 :: rest)
        = .error .InvalidMessageLength) := by
  refine ⟨?_, ?_, ?_, ?_⟩
  · intro data h
    rcases data with _|⟨a0,_|⟨a1,_|⟨a2,_|⟨a3,_|⟨a4,_|⟨a5,_|⟨a6,_|⟨a7,_|⟨a8,_|⟨a9,
      _|⟨a10,_|⟨a11,_|⟨a12,_|⟨a13,_|⟨a14,_|⟨a15,_|⟨a16,_|⟨a17,_|⟨a18,_|⟨a19,
      rest⟩⟩⟩⟩⟩⟩⟩⟩⟩⟩⟩⟩⟩⟩⟩⟩⟩⟩⟩⟩
    all_goals first
      | rfl
      | (simp only [List.length_cons] at h; omega)
  · intro d0 d1 d2 d3 d4 d5 d6 d7 t0 t1 t2 t3 t4 t5 t6 t7 t8 t9 t10 t11 rest hmt
    rw [Message.parse, hmt]
    rfl
  · intro d0 d1 d2 d3 d4 d5 d6 d7 t0 t1 t2 t3 t4 t5 t6 t7 t8 t9 t10 t11 rest hmt hck
    obtain ⟨mt', hmt⟩ := hmt
    rw [Message.parse, hmt]
    simp only [Except.bind, Except.pure, pure, bind]
    rw [if_pos hck]
    rfl
  · intro d0 d1 d2 d3 d4 d5 d6 d7 t0 t1 t2 t3 t4 t5 t6 t7 t8 t9 t10 t11 rest hmt hck hlen
    obtain ⟨mt', hmt⟩ := hmt
    rw [Message.parse, hmt]
    simp only [Except.bind, Except.pure, pure, bind]
    rw [if_neg (by omega : ¬d4 * 16777216 + d5 * 65536 + d6 * 256 + d7 ≠ MAGIC_COOKIE)]
    rw [if_pos hlen]
    rfl

/-- Witness for C10 amended: each failure mode exercised at a concrete
input (a 3-byte buffer; type 0xFFFF; Binding type with a zeroed cookie;
Binding type, good cookie, declared length 4 with an empty tail). -/
theorem parse_error_taxonomy_witness :
    Message.parse [0, 1, 0] = .error .MessageTooShort ∧
    Message.parse
        [255, 255, 0, 0, 33, 18, 164, 66, 0, 0, 0, 0, 0, 0, 0, 0, 0, 0, 0, 0]
      = .error .InvalidMessageType ∧
    Message.parse
        [0, 1, 0, 0, 0, 0, 0, 0, 0, 0, 0, 0, 0, 0, 0, 0, 0, 0, 0, 0]
      = .error .InvalidMagicCookie ∧
    Message.parse
        [0, 1, 0, 4, 33, 18, 164, 66, 0, 0, 0, 0, 0, 0, 0, 0, 0, 0, 0, 0]
      = .error .InvalidMessageLength :=
  ⟨parse_error_taxonomy.1 [0, 1, 0] (by decide),
   parse_error_taxonomy.2.1 255 255 0 0 33 18 164 66 0 0 0 0 0 0 0 0 0 0 0 0 []
     rfl,
   parse_error_taxonomy.2.2.1 0 1 0 0 0 0 0 0 0 0 0 0 0 0 0 0 0 0 0 0 []
     ⟨⟨.Binding, .Request⟩, rfl⟩ (by decide),
   parse_error_taxonomy.2.2.2 0 1 0 4 33 18 164 66 0 0 0 0 0 0 0 0 0 0 0 0 []
     ⟨⟨.Binding, .Request⟩, rfl⟩ (by decide) (by decide)⟩

/-! ## C8 -/

/-- C8: for every IPv4 or IPv6 socket address (port in 16 bits, IPv4
word in 32 bits) and every transaction id, decoding the
XOR-PEER-ADDRESS value produced by the encoder with the same
transaction id returns exactly the original address. -/
theorem xor_peer_address_roundtrip (addr : SocketAddr) (tx : TransactionId)
    (hport : addr.port < 65536)
    (hip : ∀ ip, addr.ip = IpAddr.v4 ip → ip < 4294967296) :
    parse_xor_peer_address (create_xor_peer_address_attr addr tx).value tx
      = some addr := by
  obtain ⟨ip, port⟩ := addr
  dsimp only at hport hip
  have hxp : Nat.xor port (MAGIC_COOKIE >>> 16) < 65536 := by
    have h2 : MAGIC_COOKIE >>> 16 < 2 ^ 16 := by decide
    exact Nat.xor_lt_two_pow (by norm_num [hport]) h2
  have hc : ∀ m n : Nat, Nat.xor (Nat.xor m n) n = m := fun m n =>
    Nat.xor_cancel_right n m
  cases ip with
  | v4 ipv =>
    have hipv : ipv < 4294967296 := hip ipv rfl
    have hxi : Nat.xor ipv MAGIC_COOKIE < 4294967296 := by
      have h2 : MAGIC_COOKIE < 2 ^ 32 := by decide
      exact Nat.xor_lt_two_pow (by norm_num [hipv]) h2
    simp only [create_xor_peer_address_attr, parse_xor_peer_address]
    norm_num
    have hq : Nat.xor port (MAGIC_COOKIE >>> 16) / 256 % 256 * 256 +
        Nat.xor port (MAGIC_COOKIE >>> 16) % 256
          = Nat.xor port (MAGIC_COOKIE >>> 16) := by
      omega
    rw [hq]
    have hq2 : Nat.xor ipv MAGIC_COOKIE / 16777216 % 256 * 16777216 +
        Nat.xor ipv MAGIC_COOKIE / 65536 % 256 * 65536 +
        Nat.xor ipv MAGIC_COOKIE / 256 % 256 * 256 +
        Nat.xor ipv MAGIC_COOKIE % 256 = Nat.xor ipv MAGIC_COOKIE := by
      omega
    rw [hq2]
    simp [hc]
  | v6 o0 o1 o2 o3 o4 o5 o6 o7 o8 o9 o10 o11 o12 o13 o14 o15 =>
    simp only [create_xor_peer_address_attr, parse_xor_peer_address]
    norm_num
    have hq : Nat.xor port (MAGIC_COOKIE >>> 16) / 256 % 256 * 256 +
        Nat.xor port (MAGIC_COOKIE >>> 16) % 256
          = Nat.xor port (MAGIC_COOKIE >>> 16) := by
      omega
    rw [hq]
    simp [hc]

/-- Witness for C8 at 203.0.113.1:80 and at [2001:db8::1]:8080. -/
theorem xor_peer_address_roundtrip_witness :
    parse_xor_peer_address (create_xor_peer_address_attr egPeer1 egTx).value egTx
      = some egPeer1 ∧
    parse_xor_peer_address
        (create_xor_peer_address_attr
          ⟨IpAddr.v6 0x20 0x01 0x0d 0xb8 0 0 0 0 0 0 0 0 0 0 0 1, 8080⟩ egTx).value
        egTx
      = some ⟨IpAddr.v6 0x20 0x01 0x0d 0xb8 0 0 0 0 0 0 0 0 0 0 0 1, 8080⟩ :=
  ⟨xor_peer_address_roundtrip egPeer1 egTx (by decide)
    (fun ip h => by simp [egPeer1] at h; omega),
   xor_peer_address_roundtrip _ egTx (by decide)
    (fun ip h => by simp at h)⟩


/-! ## C9 lemmas -/

theorem land_mask4 {n : Nat} (h : n < 65536) : Nat.land n 65532 = 4 * (n / 4) := by
  have hsh : 4 * (n / 4) = (n >>> 2) <<< 2 := by
    rw [Nat.shiftLeft_eq, Nat.shiftRight_eq_div_pow]
    norm_num
    omega
  apply Nat.eq_of_testBit_eq
  intro i
  show (n &&& 65532).testBit i = (4 * (n / 4)).testBit i
  rw [Nat.testBit_land]
  rw [show (65532 : Nat) = 16383 <<< 2 by decide]
  rw [Nat.testBit_shiftLeft]
  rw [show (16383 : Nat) = 2 ^ 14 - 1 by norm_num]
  rw [Nat.testBit_two_pow_sub_one]
  rw [hsh, Nat.testBit_shiftLeft, Nat.testBit_shiftRight]
  by_cases h2i : 2 ≤ i
  · by_cases h16 : i < 16
    · have hi : 2 + (i - 2) = i := by omega
      rw [hi]
      simp [h2i, show i - 2 < 14 by omega, Bool.and_comm]
    · have hle : (65536 : Nat) ≤ 2 ^ i := by
        calc (65536 : Nat) = 2 ^ 16 := by norm_num
          _ ≤ 2 ^ i := Nat.pow_le_pow_right (by norm_num) (by omega)
      have hbit : n.testBit i = false :=
        Nat.testBit_lt_two_pow (lt_of_lt_of_le h hle)
      have hi : 2 + (i - 2) = i := by omega
      rw [hi, hbit]
      simp [show ¬(i - 2 < 14) by omega]
  · simp [show ¬(i ≥ 2) from h2i]

/-- SHA-1 always yields twenty bytes. -/
theorem sha1_length_eq (msg : List Nat) : (sha1 msg).length = 20 := by
  simp [sha1, be4]

/-- `calculate_message_integrity` yields a 20-byte HMAC. -/
theorem calculate_message_integrity_length (m : Message) (k : List Nat) :
    (calculate_message_integrity m k).length = 20 := by
  simp [calculate_message_integrity, hmac_sha1, sha1_length_eq]

/-- Keys with the same preprocessed 64-byte block key produce the same
HMAC. -/
theorem hmac_sha1_key_congr {k k' : List Nat}
    (hkey : hmacBlockKey k = hmacBlockKey k') (msg : List Nat) :
    hmac_sha1 k msg = hmac_sha1 k' msg := by
  rw [hmac_sha1, hmac_sha1, hkey]

/-- `calculate_message_integrity` only depends on the preprocessed key. -/
theorem calculate_message_integrity_key_congr {k k' : List Nat}
    (hkey : hmacBlockKey k = hmacBlockKey k') (m : Message) :
    calculate_message_integrity m k = calculate_message_integrity m k' := by
  rw [calculate_message_integrity, calculate_message_integrity,
    hmac_sha1_key_congr hkey]

/-- Length of a serialized attribute: header plus padded value. -/
theorem RawAttribute.serialize_length (a : RawAttribute) :
    (RawAttribute.serialize a).length
      = 4 + a.value.length + (4 - a.value.length % 4) % 4 := by
  simp [RawAttribute.serialize]
  omega

/-- `attrsConcat` unfolding on a cons cell. -/
theorem attrsConcat_cons (a : RawAttribute) (t : List RawAttribute) :
    attrsConcat (a :: t) = RawAttribute.serialize a ++ attrsConcat t := by
  simp [attrsConcat]

/-- Plain-match unfolding of the `find_message_integrity` scan. -/
theorem find_message_integrity_eq (attrs : List Nat) (offset : Nat) :
    find_message_integrity attrs offset =
      if offset < attrs.length then
        match RawAttribute.parse (attrs.drop offset) with
        | .error e => .error e
        | .ok (attr, consumed) =>
            if attr.attribute_type = 0x0008 then .ok (some (attr.value, offset))
            else find_message_integrity attrs (offset + consumed)
      else .ok none := by
  by_cases h : offset < attrs.length
  · conv_lhs => rw [find_message_integrity]
    rw [dif_pos h, if_pos h]
    rcases hp : RawAttribute.parse (attrs.drop offset) with e | ⟨attr, consumed⟩ <;>
      simp [hp]
  · conv_lhs => rw [find_message_integrity]
    rw [dif_neg h, if_neg h]

/-- Scanning a well-formed MESSAGE-INTEGRITY-free TLV sequence followed
by a MESSAGE-INTEGRITY TLV finds the latter, at the offset right after
the sequence. -/
theorem find_mi_concat (l : List RawAttribute) :
    ∀ (B : List Nat) (offset : Nat) (mac : List Nat),
      (∀ a ∈ l, a.attribute_type < 65536 ∧ a.attribute_type ≠ 0x0008 ∧
        a.value.length < 65533) →
      mac.length = 20 →
      B.drop offset = attrsConcat l ++ RawAttribute.serialize ⟨0x0008, mac⟩ →
      find_message_integrity B offset
        = .ok (some (mac, offset + (attrsConcat l).length)) := by
  induction l with
  | nil =>
      intro B offset mac _ hmac hdrop
      have hser : RawAttribute.serialize ⟨0x0008, mac⟩ = 0 :: 8 :: 0 :: 20 :: mac := by
        simp [RawAttribute.serialize, hmac]
      rw [show attrsConcat [] = [] from rfl, List.nil_append, hser] at hdrop
      have hofflt : offset < B.length := by
        have hl := congrArg List.length hdrop
        rw [List.length_drop] at hl
        simp [hmac] at hl
        omega
      have hparse : RawAttribute.parse (0 :: 8 :: 0 :: 20 :: mac)
          = .ok (⟨8, mac⟩, 24) := by
        rw [RawAttribute.parse]
        rw [if_neg (by omega : ¬mac.length < 0 * 256 + 20)]
        simp only [show (0 : Nat) * 256 + 8 = 8 by norm_num,
          show (0 : Nat) * 256 + 20 = 20 by norm_num,
          show (4 : Nat) + Nat.land (20 + 3) 65532 = 24 by decide]
        rw [show (20 : Nat) = mac.length from hmac.symm, List.take_length]
      rw [find_message_integrity_eq, if_pos hofflt, hdrop, hparse]
      norm_num [attrsConcat]
  | cons a t ih =>
      intro B offset mac hwf hmac hdrop
      obtain ⟨hT, hne8, hvlen⟩ := hwf a (List.mem_cons_self a t)
      have hwf' : ∀ x ∈ t, x.attribute_type < 65536 ∧ x.attribute_type ≠ 0x0008 ∧
          x.value.length < 65533 := fun x hx => hwf x (List.mem_cons_of_mem a hx)
      rw [attrsConcat_cons, List.append_assoc] at hdrop
      have hlen65536 : a.value.length % 65536 = a.value.length := by omega
      have hser : RawAttribute.serialize a =
          a.attribute_type / 256 % 256 :: a.attribute_type % 256 ::
          a.value.length / 256 % 256 :: a.value.length % 256 ::
          (a.value ++ List.replicate ((4 - a.value.length % 4) % 4) 0) := by
        rw [RawAttribute.serialize]
        rw [hlen65536]
        simp [List.cons_append]
      have hdropB : B.drop offset =
          a.attribute_type / 256 % 256 :: a.attribute_type % 256 ::
          a.value.length / 256 % 256 :: a.value.length % 256 ::
          ((a.value ++ List.replicate ((4 - a.value.length % 4) % 4) 0) ++
            (attrsConcat t ++ RawAttribute.serialize ⟨0x0008, mac⟩)) := by
        rw [hdrop, hser]
        simp [List.cons_append]
      have hofflt : offset < B.length := by
        have hl := congrArg List.length hdropB
        rw [List.length_drop] at hl
        simp [List.length_cons] at hl
        omega
      have hparse : RawAttribute.parse
          (a.attribute_type / 256 % 256 :: a.attribute_type % 256 ::
           a.value.length / 256 % 256 :: a.value.length % 256 ::
           ((a.value ++ List.replicate ((4 - a.value.length % 4) % 4) 0) ++
             (attrsConcat t ++ RawAttribute.serialize ⟨0x0008, mac⟩)))
          = .ok (⟨a.attribute_type,
              (((a.value ++ List.replicate ((4 - a.value.length % 4) % 4) 0) ++
                (attrsConcat t ++ RawAttribute.serialize ⟨0x0008, mac⟩)).take
                  a.value.length)⟩,
              4 + Nat.land (a.value.length + 3) 65532) := by
        rw [RawAttribute.parse]
        have hrecT : a.attribute_type / 256 % 256 * 256 + a.attribute_type % 256
            = a.attribute_type := by omega
        have hrecL : a.value.length / 256 % 256 * 256 + a.value.length % 256
            = a.value.length := by omega
        rw [hrecT, hrecL]
        rw [if_neg (by simp only [List.length_append]; omega)]
      rw [find_message_integrity_eq, if_pos hofflt, hdropB, hparse]
      dsimp only
      rw [if_neg hne8]
      have hconsumed : 4 + Nat.land (a.value.length + 3) 65532
          = (RawAttribute.serialize a).length := by
        rw [RawAttribute.serialize_length, land_mask4 (by omega)]
        omega
      have hdrop2 : B.drop (offset + (4 + Nat.land (a.value.length + 3) 65532))
          = attrsConcat t ++ RawAttribute.serialize ⟨0x0008, mac⟩ := by
        rw [← List.drop_drop, hdrop]
        exact List.drop_left' hconsumed.symm
      have hrec := ih B (offset + (4 + Nat.land (a.value.length + 3) 65532)) mac
        hwf' hmac hdrop2
      rw [hrec]
      have hoff : offset + (4 + Nat.land (a.value.length + 3) 65532) +
          (attrsConcat t).length = offset + (attrsConcat (a :: t)).length := by
        rw [attrsConcat_cons, List.length_append, ← hconsumed]
        omega
      rw [hoff]

/-- Core C9 fact: appending the MESSAGE-INTEGRITY computed with key `k`
to a message whose attributes are a well-formed MESSAGE-INTEGRITY-free
TLV sequence verifies with any key `k'` whose preprocessed 64-byte HMAC
block key agrees with `k`'s (in particular with `k` itself). -/
theorem verify_append_ok (m : Message) (k k' : List Nat) (l : List RawAttribute)
    (hattrs : m.attributes = attrsConcat l)
    (hwf : ∀ a ∈ l, a.attribute_type < 65536 ∧ a.attribute_type ≠ 0x0008 ∧
      a.value.length < 65533)
    (hlen : m.length = m.attributes.length)
    (hbound : m.attributes.length < 65536)
    (hkey : hmacBlockKey k' = hmacBlockKey k) :
    verify_message_integrity (append_message_integrity m k) k' = .ok true := by
  obtain ⟨mt, len, tx, attrs⟩ := m
  dsimp only at hattrs hlen hbound
  subst hlen
  subst hattrs
  have hmac20 : (calculate_message_integrity
      ⟨mt, (attrsConcat l).length, tx, attrsConcat l⟩ k).length = 20 :=
    calculate_message_integrity_length _ k
  have hfind : find_message_integrity
      (attrsConcat l ++ RawAttribute.serialize
        ⟨0x0008, calculate_message_integrity
          ⟨mt, (attrsConcat l).length, tx, attrsConcat l⟩ k⟩) 0
      = .ok (some (calculate_message_integrity
          ⟨mt, (attrsConcat l).length, tx, attrsConcat l⟩ k,
        (attrsConcat l).length)) := by
    have h := find_mi_concat l
      (attrsConcat l ++ RawAttribute.serialize
        ⟨0x0008, calculate_message_integrity
          ⟨mt, (attrsConcat l).length, tx, attrsConcat l⟩ k⟩)
      0 _ hwf hmac20 (by rw [List.drop_zero])
    rwa [Nat.zero_add] at h
  rw [append_message_integrity]
  dsimp only
  rw [verify_message_integrity]
  dsimp only
  rw [hfind]
  dsimp only
  rw [List.take_left]
  have hmod : (attrsConcat l).length % 65536 = (attrsConcat l).length :=
    Nat.mod_eq_of_lt hbound
  rw [hmod]
  rw [calculate_message_integrity_key_congr hkey]
  simp

/-! ## C9 -/

/-- C9: the claim fails on the code. The keys `[107]` and `[107, 0]`
are different, yet a message authenticated with `[107]` verifies
successfully with `[107, 0]`: HMAC zero-pads keys to its 64-byte block
size, so both preprocess to the same block key. -/
theorem verify_accepts_distinct_zero_padded_key :
    verify_message_integrity (append_message_integrity egMessage [107]) [107, 0]
      = .ok true ∧
    ([107] : List Nat) ≠ [107, 0] := by
  constructor
  · exact verify_append_ok egMessage [107] [107, 0] [] rfl (by simp) rfl
      (by decide) (by decide)
  · decide

/-- C9 amended: for every message whose attribute bytes are a
concatenation of serialized attributes, none of type MESSAGE-INTEGRITY
(types in 16 bits, value lengths under 65533), with a consistent length
field under 2^16: after appending the MESSAGE-INTEGRITY attribute
computed with key `k`, `verify_message_integrity` returns true with `k`
itself and with every key `k'` whose zero-padded 64-byte HMAC block key
equals `k`'s; since distinct keys can share a block key, verification
does NOT return false for every `k'` different from `k`. -/
theorem message_integrity_append_verify (m : Message) (k k' : List Nat)
    (l : List RawAttribute)
    (hattrs : m.attributes = attrsConcat l)
    (hwf : ∀ a ∈ l, a.attribute_type < 65536 ∧ a.attribute_type ≠ 0x0008 ∧
      a.value.length < 65533)
    (hlen : m.length = m.attributes.length)
    (hbound : m.attributes.length < 65536)
    (hkey : hmacBlockKey k' = hmacBlockKey k) :
    verify_message_integrity (append_message_integrity m k) k' = .ok true :=
  verify_append_ok m k k' l hattrs hwf hlen hbound hkey

/-- Witness for C9 amended: an Allocate request carrying one USERNAME
attribute, authenticated and verified with the same key. -/
theorem message_integrity_append_verify_witness :
    verify_message_integrity
        (append_message_integrity
          ⟨⟨.Allocate, .Request⟩, 8, egTx,
            attrsConcat [⟨0x0006, [116, 101, 115, 116]⟩]⟩ [107])
        [107]
      = .ok true :=
  message_integrity_append_verify
    ⟨⟨.Allocate, .Request⟩, 8, egTx, attrsConcat [⟨0x0006, [116, 101, 115, 116]⟩]⟩
    [107] [107] [⟨0x0006, [116, 101, 115, 116]⟩]
    rfl (by decide) (by decide) (by decide) rfl

end ToyTurn
